import Mathlib

/-!
Shallow embedding of the `common_stream` Rust crate (files `lib.rs`,
`impl.rs`, `never_error.rs`).

An iterator is modelled as the list of elements it has yet to yield;
`Iterator::next` becomes a function from a state to an optional element
paired with the successor state.  A `VecDeque` is modelled as a list whose
head is the deque front and whose last element is the deque back.
-/

namespace CommonStream

/-- VecDeque pop from the back end: returns the last element (if any) and
the remaining deque, mirroring `VecDeque::pop_back`. -/
def popBack {U : Type} (l : List U) : Option U × List U :=
  match l.getLast? with
  | some b => (some b, l.dropLast)
  | none => (none, l)

/-- `Stream` from `lib.rs`: the wrapped producer `inner` is an iterator of
`Result<C, E>` items, and `backing_store` is a `VecDeque<C>` (head = front). -/
structure Stream (C E : Type) where
  inner : List (Except E C)
  backing_store : List C

/-- `Stream::new` from `lib.rs`: wraps a producer with an empty buffer. -/
def Stream.new {C E : Type} (inner : List (Except E C)) : Stream C E :=
  ⟨inner, []⟩

/-- `<Stream as UnRead>::unread` from `lib.rs`: `backing_store.push_front(chunk)`. -/
def Stream.unread {C E : Type} (s : Stream C E) (chunk : C) : Stream C E :=
  { s with backing_store := chunk :: s.backing_store }

/-- `UnRead::unread_from_chunks` default method from `lib.rs`:
`for c in iter { self.unread(c) }`. -/
def Stream.unread_from_chunks {C E : Type} (s : Stream C E) (iter : List C) : Stream C E :=
  iter.foldl Stream.unread s

/-- `<Stream as Iterator>::next` from `lib.rs`:
`self.backing_store.pop_front().map_or_else(|| self.inner.next(), |b| Some(Ok(b)))`. -/
def Stream.next {C E : Type} (s : Stream C E) : Option (Except E C) × Stream C E :=
  match s.backing_store with
  | b :: rest => (some (Except.ok b), { s with backing_store := rest })
  | [] =>
    match s.inner with
    | i :: rest => (some i, { s with inner := rest })
    | [] => (none, s)

/-- Repeated `Stream::next`: the list of the first `n` pull results together
with the state after them. -/
def Stream.pulls {C E : Type} : Stream C E → Nat → List (Option (Except E C)) × Stream C E
  | s, 0 => ([], s)
  | s, n + 1 =>
    let p := s.next
    let q := Stream.pulls p.2 n
    (p.1 :: q.1, q.2)

/-- `Transformed` from `impl.rs`: producer `iter` of raw items `T`, transform
function `FnMut(T) -> Result<U, E>`, and `backing_store : VecDeque<U>`. -/
structure Transformed (T U E : Type) where
  iter : List T
  transform : T → Except E U
  backing_store : List U

/-- `Transformed::new` from `impl.rs`: empty `backing_store`. -/
def Transformed.new {T U E : Type} (iter : List T) (transform : T → Except E U) :
    Transformed T U E :=
  ⟨iter, transform, []⟩

/-- `Transformed::with_backing_store` from `impl.rs`:
`backing_store: VecDeque::from_iter(backing_store)`. -/
def Transformed.with_backing_store {T U E : Type} (iter : List T)
    (transform : T → Except E U) (backing_store : List U) : Transformed T U E :=
  ⟨iter, transform, backing_store⟩

/-- `<Transformed as UnRead>::unread` from `impl.rs`:
`self.backing_store.push_back(token)`. -/
def Transformed.unread {T U E : Type} (s : Transformed T U E) (token : U) :
    Transformed T U E :=
  { s with backing_store := s.backing_store ++ [token] }

/-- `<Transformed as UnRead>::unread_from_tokens` from `impl.rs`:
`self.backing_store.extend(iter)`. -/
def Transformed.unread_from_tokens {T U E : Type} (s : Transformed T U E) (iter : List U) :
    Transformed T U E :=
  { s with backing_store := s.backing_store ++ iter }

/-- `<Transformed as Iterator>::next` from `impl.rs`:
if the buffer is empty, `self.iter.next().map(|it| (self.transform)(it))`;
otherwise `self.backing_store.pop_back().map(Ok)`. -/
def Transformed.next {T U E : Type} (s : Transformed T U E) :
    Option (Except E U) × Transformed T U E :=
  if s.backing_store.isEmpty then
    match s.iter with
    | i :: rest => (some (s.transform i), { s with iter := rest })
    | [] => (none, s)
  else
    let p := popBack s.backing_store
    (p.1.map Except.ok, { s with backing_store := p.2 })

/-- Repeated `Transformed::next`: the list of the first `n` pull results
together with the state after them. -/
def Transformed.pulls {T U E : Type} :
    Transformed T U E → Nat → List (Option (Except E U)) × Transformed T U E
  | s, 0 => ([], s)
  | s, n + 1 =>
    let p := s.next
    let q := Transformed.pulls p.2 n
    (p.1 :: q.1, q.2)

/-- `InvalidState` from `never_error.rs`: the declared (but, by the adapter,
never constructed) error type of the infallible adapter. -/
inductive InvalidState : Type where
  | mk : InvalidState
deriving DecidableEq

/-- `never_error::Iter` from `never_error.rs`: a wrapper around a producer
that cannot fail. -/
structure NeIter (T : Type) where
  inner : List T

/-- `never_error::Iter::new`. -/
def NeIter.new {T : Type} (inner : List T) : NeIter T :=
  ⟨inner⟩

/-- `<never_error::Iter as Iterator>::next` from `never_error.rs`:
`self.0.next().map(Ok)`. -/
def NeIter.next {T : Type} (s : NeIter T) : Option (Except InvalidState T) × NeIter T :=
  match s.inner with
  | i :: rest => (some (Except.ok i), { s with inner := rest })
  | [] => (none, s)

/-- Repeated `never_error::Iter::next`. -/
def NeIter.pulls {T : Type} : NeIter T → Nat → List (Option (Except InvalidState T)) × NeIter T
  | s, 0 => ([], s)
  | s, n + 1 =>
    let p := s.next
    let q := NeIter.pulls p.2 n
    (p.1 :: q.1, q.2)

/-- An externally observable pushback/pull operation, used to compare the two
pushback implementations. -/
inductive Op (C : Type) where
  | unreadOne : C → Op C
  | unreadMany : List C → Op C
  | pull : Op C

/-- Run a list of operations against a `Stream`, collecting the result of
every pull. -/
def Stream.run {C E : Type} : List (Op C) → Stream C E → List (Option (Except E C))
  | [], _ => []
  | Op.unreadOne x :: ops, s => Stream.run ops (s.unread x)
  | Op.unreadMany xs :: ops, s => Stream.run ops (s.unread_from_chunks xs)
  | Op.pull :: ops, s =>
    let p := s.next
    p.1 :: Stream.run ops p.2

/-- Run a list of operations against a `Transformed`, collecting the result
of every pull. -/
def Transformed.run {T U E : Type} :
    List (Op U) → Transformed T U E → List (Option (Except E U))
  | [], _ => []
  | Op.unreadOne x :: ops, s => Transformed.run ops (s.unread x)
  | Op.unreadMany xs :: ops, s => Transformed.run ops (s.unread_from_tokens xs)
  | Op.pull :: ops, s =>
    let p := s.next
    p.1 :: Transformed.run ops p.2

/-! Helper lemmas shared by the claim theorems. -/

theorem popBack_concat {U : Type} (l : List U) (x : U) :
    popBack (l ++ [x]) = (some x, l) := by
  simp [popBack, List.getLast?_concat, List.dropLast_concat]

theorem Stream.unread_from_chunks_eq {C E : Type} (xs : List C) (s : Stream C E) :
    s.unread_from_chunks xs = ⟨s.inner, xs.reverse ++ s.backing_store⟩ := by
  induction xs generalizing s with
  | nil => rfl
  | cons a as ih =>
    have h : s.unread_from_chunks (a :: as) = (s.unread a).unread_from_chunks as := rfl
    rw [h, ih]
    simp [Stream.unread]

theorem Transformed.next_snoc {T U E : Type} (s : Transformed T U E) (l : List U) (x : U)
    (h : s.backing_store = l ++ [x]) :
    s.next = (some (Except.ok x), { s with backing_store := l }) := by
  have hne : (l ++ [x]).isEmpty = false := by
    cases l <;> simp
  simp [Transformed.next, h, hne, popBack_concat]

/-! Claim theorems. -/

/-- C1: whenever the pushback buffer is non-empty at the start of a pull, both
implementations pop and return the buffer's next-to-deliver token wrapped in
`Ok`, the underlying producer is not advanced (the `inner` / `iter` field of
the resulting state is unchanged), and for `Transformed` the result is the
same whatever the transform function is, i.e. the transform is not invoked. -/
theorem C1_buffer_first_ordering {C E T U : Type}
    (s : Stream C E) (b : C) (rest : List C)
    (t : Transformed T U E) (l : List U) (x : U)
    (hs : s.backing_store = b :: rest)
    (ht : t.backing_store = l ++ [x]) :
    s.next = (some (Except.ok b), { s with backing_store := rest })
      ∧ t.next = (some (Except.ok x), { t with backing_store := l })
      ∧ (∀ f : T → Except E U, ({ t with transform := f } : Transformed T U E).next
          = (some (Except.ok x), { t with transform := f, backing_store := l })) := by
  refine ⟨?_, ?_, ?_⟩
  · simp [Stream.next, hs]
  · exact Transformed.next_snoc t l x ht
  · intro f
    exact Transformed.next_snoc { t with transform := f } l x ht

/-- C1 witness: concrete instances with non-empty buffers; the `Transformed`
instance is evaluated under an always-failing transform and still delivers
the buffered token. -/
theorem C1_buffer_first_ordering_witness :
    (⟨[Except.ok 9], [5, 6]⟩ : Stream Nat InvalidState).next
        = (some (Except.ok 5), ⟨[Except.ok 9], [6]⟩)
      ∧ (⟨[1, 2], Except.ok, [7, 8]⟩ : Transformed Nat Nat InvalidState).next
        = (some (Except.ok 8), ⟨[1, 2], Except.ok, [7]⟩)
      ∧ (⟨[1, 2], fun _ => Except.error InvalidState.mk, [7, 8]⟩ :
            Transformed Nat Nat InvalidState).next
        = (some (Except.ok 8), ⟨[1, 2], fun _ => Except.error InvalidState.mk, [7]⟩) := by
  have h := C1_buffer_first_ordering
    (⟨[Except.ok 9], [5, 6]⟩ : Stream Nat InvalidState) 5 [6]
    (⟨[1, 2], Except.ok, [7, 8]⟩ : Transformed Nat Nat InvalidState) [7] 8 rfl rfl
  exact ⟨h.1, h.2.1, h.2.2 (fun _ => Except.error InvalidState.mk)⟩

/-- C3: for any state and any token, `unread x` followed by one pull yields
`Ok x` and returns the stream to exactly its previous state; in particular
the producer position is unchanged by the round trip, and the token staged by
`unread` is delivered ahead of anything already staged. Holds for both
implementations. -/
theorem C3_single_token_roundtrip {C E T U : Type} (s : Stream C E) (x : C)
    (t : Transformed T U E) (y : U) :
    (s.unread x).next = (some (Except.ok x), s)
      ∧ (t.unread y).next = (some (Except.ok y), t) := by
  constructor
  · rfl
  · exact Transformed.next_snoc (t.unread y) t.backing_store y rfl

/-- C4: when the buffer is empty and the next raw item `r` maps to an error
`e` under the transform, the pull returns `Err e` unmodified and consumes `r`
(the producer moves to `rest`); the buffer stays empty (nothing is cached),
and the following pull applies the transform to the next raw item, not `r`. -/
theorem C4_transform_error_relay {T U E : Type} (t : Transformed T U E)
    (r : T) (rest : List T) (e : E)
    (hb : t.backing_store = []) (hi : t.iter = r :: rest)
    (he : t.transform r = Except.error e) :
    t.next = (some (Except.error e), { t with iter := rest })
      ∧ ({ t with iter := rest } : Transformed T U E).backing_store = []
      ∧ ({ t with iter := rest } : Transformed T U E).next
          = (rest.head?.map t.transform, { t with iter := rest.tail }) := by
  refine ⟨?_, by simpa using hb, ?_⟩
  · simp [Transformed.next, hb, hi, he]
  · cases rest with
    | nil => simp [Transformed.next, hb]
    | cons r2 rest2 => simp [Transformed.next, hb]

/-- C4 witness: a transform failing exactly on item 0; pulling relays the
error once and the next pull transforms the following raw item. -/
theorem C4_transform_error_relay_witness :
    (⟨[0, 3], fun n => if n = 0 then Except.error InvalidState.mk else Except.ok n,
        []⟩ : Transformed Nat Nat InvalidState).next
      = (some (Except.error InvalidState.mk),
          ⟨[3], fun n => if n = 0 then Except.error InvalidState.mk else Except.ok n, []⟩) := by
  have h := C4_transform_error_relay
    (⟨[0, 3], fun n => if n = 0 then Except.error InvalidState.mk else Except.ok n,
        []⟩ : Transformed Nat Nat InvalidState) 0 [3] InvalidState.mk rfl rfl rfl
  exact h.1

theorem Transformed.pulls_succ {T U E : Type} (s : Transformed T U E) (n : Nat) :
    s.pulls (n + 1) = (s.next.1 :: (s.next.2.pulls n).1, (s.next.2.pulls n).2) := rfl

theorem Transformed.pulls_back_buffer {T U E : Type} (ys : List U) (t : Transformed T U E) :
    ({ t with backing_store := t.backing_store ++ ys } : Transformed T U E).pulls ys.length
      = (ys.reverse.map fun u => some (Except.ok u), t) := by
  induction ys using List.reverseRecOn generalizing t with
  | nil => simp [Transformed.pulls]
  | append_singleton ys y ih =>
    have hn : ({ t with backing_store := t.backing_store ++ (ys ++ [y]) } :
        Transformed T U E).next
        = (some (Except.ok y), { t with backing_store := t.backing_store ++ ys }) := by
      apply Transformed.next_snoc
      simp
    have hlen : (ys ++ [y]).length = ys.length + 1 := by simp
    rw [hlen, Transformed.pulls_succ, hn]
    simp [ih t]

theorem Stream.pulls_front_buffer {C E : Type} (xs : List C) (s : Stream C E) :
    (⟨s.inner, xs ++ s.backing_store⟩ : Stream C E).pulls xs.length
      = (xs.map fun c => some (Except.ok c), s) := by
  induction xs generalizing s with
  | nil => simp [Stream.pulls]
  | cons a as ih => simp [Stream.pulls, Stream.next, ih s]

/-- C2: for any state of either implementation, pushing back the sequence
`[a, b, c]` in one `unread_from_chunks` / `unread_from_tokens` call and then
pulling three times yields `Ok c`, `Ok b`, `Ok a` — the input sequence
replayed in reverse — and returns the stream to its prior state. -/
theorem C2_pushback_reversal {C E T U : Type} (s : Stream C E) (a b c : C)
    (t : Transformed T U E) (x y z : U) :
    (s.unread_from_chunks [a, b, c]).pulls 3
        = ([some (Except.ok c), some (Except.ok b), some (Except.ok a)], s)
      ∧ (t.unread_from_tokens [x, y, z]).pulls 3
        = ([some (Except.ok z), some (Except.ok y), some (Except.ok x)], t) := by
  constructor
  · have h := Stream.pulls_front_buffer [c, b, a] s
    rw [Stream.unread_from_chunks_eq]
    simpa using h
  · have h := Transformed.pulls_back_buffer [x, y, z] t
    simpa [Transformed.unread_from_tokens] using h

/-- C5: once the producer is exhausted and the buffer is empty, every later
pull also signals exhaustion (`none`) and leaves the state unchanged — for
any number of subsequent pulls, in both implementations. -/
theorem C5_exhaustion_terminal {C E T U : Type} (s : Stream C E)
    (t : Transformed T U E) (n : Nat)
    (hsb : s.backing_store = []) (hsi : s.inner = [])
    (htb : t.backing_store = []) (hti : t.iter = []) :
    s.pulls n = (List.replicate n none, s) ∧ t.pulls n = (List.replicate n none, t) := by
  have hs : s.next = (none, s) := by
    simp [Stream.next, hsb, hsi]
  have ht : t.next = (none, t) := by
    simp [Transformed.next, htb, hti]
  constructor
  · induction n with
    | zero => rfl
    | succ n ih => simp [Stream.pulls, hs, ih, List.replicate_succ]
  · induction n with
    | zero => rfl
    | succ n ih => simp [Transformed.pulls, ht, ih, List.replicate_succ]

/-- C5 witness: exhausted streams with empty buffers yield `none` on three
consecutive pulls and stay unchanged. -/
theorem C5_exhaustion_terminal_witness :
    ((⟨[], []⟩ : Stream Nat InvalidState).pulls 3 = ([none, none, none], ⟨[], []⟩))
      ∧ ((⟨[], Except.ok, []⟩ : Transformed Nat Nat InvalidState).pulls 3
        = ([none, none, none], ⟨[], Except.ok, []⟩)) := by
  have h := C5_exhaustion_terminal (⟨[], []⟩ : Stream Nat InvalidState)
    (⟨[], Except.ok, []⟩ : Transformed Nat Nat InvalidState) 3 rfl rfl rfl rfl
  simpa using h

theorem NeIter.pulls_all {T : Type} (l : List T) (n : Nat) :
    (⟨l⟩ : NeIter T).pulls (l.length + n)
      = ((l.map fun i => some (Except.ok i)) ++ List.replicate n none,
         (⟨[]⟩ : NeIter T)) := by
  induction l with
  | nil =>
    simp only [List.length_nil, Nat.zero_add, List.map_nil, List.nil_append]
    induction n with
    | zero => rfl
    | succ n ih => simp [NeIter.pulls, NeIter.next, ih, List.replicate_succ]
  | cons a as ih =>
    have hl : (a :: as).length + n = (as.length + n) + 1 := by
      simp [Nat.succ_add]
    rw [hl]
    simp [NeIter.pulls, NeIter.next, ih]

/-- C6: the infallible adapter over a producer yielding `i1, ..., in` yields
`Ok i1, ..., Ok in` in order, then exhaustion on every further pull, and no
pull ever returns the error variant. -/
theorem C6_infallible_adapter_fidelity {T : Type} (l : List T) (n : Nat) :
    (NeIter.new l).pulls (l.length + n)
        = ((l.map fun i => some (Except.ok i)) ++ List.replicate n none,
           (⟨[]⟩ : NeIter T))
      ∧ ∀ o ∈ ((NeIter.new l).pulls (l.length + n)).1, ∀ e : InvalidState,
          o ≠ some (Except.error e) := by
  have h := NeIter.pulls_all l n
  refine ⟨h, ?_⟩
  intro o ho e
  rw [show NeIter.new l = (⟨l⟩ : NeIter T) from rfl, h] at ho
  simp only [List.mem_append, List.mem_map, List.mem_replicate] at ho
  rcases ho with ⟨i, _, rfl⟩ | ⟨_, rfl⟩ <;> simp

/-- C6 witness: the adapter over the producer `[1, 2]`, pulled three times,
yields `Ok 1`, `Ok 2`, then exhaustion, and a delivered value is not the
error variant. -/
theorem C6_infallible_adapter_fidelity_witness :
    some (Except.ok 1) ≠ some (Except.error InvalidState.mk)
      ∧ (NeIter.new [1, 2]).pulls ([1, 2].length + 1)
        = ([some (Except.ok 1), some (Except.ok 2), none], (⟨[]⟩ : NeIter Nat)) := by
  have h := C6_infallible_adapter_fidelity [1, 2] 1
  have hmem : some (Except.ok 1) ∈ ((NeIter.new [1, 2]).pulls ([1, 2].length + 1)).1 := by
    rw [h.1]
    simp
  exact ⟨h.2 (some (Except.ok 1)) hmem InvalidState.mk, by simpa using h.1⟩

/-- C7: `unread` is available in every state, in particular when the stream
has just signaled end-of-stream, and with an arbitrary token never produced
by the stream; the call succeeds and the next pull delivers the token as
`Ok` even though the producer is exhausted. Both implementations. -/
theorem C7_unread_after_exhaustion {C E T U : Type} (s : Stream C E) (x : C)
    (t : Transformed T U E) (y : U)
    (hsb : s.backing_store = []) (hsi : s.inner = [])
    (htb : t.backing_store = []) (hti : t.iter = []) :
    s.next = (none, s) ∧ (s.unread x).next = (some (Except.ok x), s)
      ∧ t.next = (none, t) ∧ (t.unread y).next = (some (Except.ok y), t) := by
  refine ⟨?_, rfl, ?_, ?_⟩
  · simp [Stream.next, hsb, hsi]
  · simp [Transformed.next, htb, hti]
  · exact Transformed.next_snoc (t.unread y) t.backing_store y rfl

/-- C7 witness: a fully exhausted stream accepts an `unread` of a token the
stream never produced, and the next pull returns it as `Ok`. -/
theorem C7_unread_after_exhaustion_witness :
    (⟨[], []⟩ : Stream Nat InvalidState).next = (none, ⟨[], []⟩)
      ∧ ((⟨[], []⟩ : Stream Nat InvalidState).unread 42).next
        = (some (Except.ok 42), ⟨[], []⟩)
      ∧ (⟨[], Except.ok, []⟩ : Transformed Nat Nat InvalidState).next
        = (none, ⟨[], Except.ok, []⟩)
      ∧ ((⟨[], Except.ok, []⟩ : Transformed Nat Nat InvalidState).unread 7).next
        = (some (Except.ok 7), ⟨[], Except.ok, []⟩) :=
  C7_unread_after_exhaustion (⟨[], []⟩ : Stream Nat InvalidState) 42
    (⟨[], Except.ok, []⟩ : Transformed Nat Nat InvalidState) 7 rfl rfl rfl rfl

theorem run_equiv_aux {C E : Type} (ops : List (Op C)) :
    ∀ (inner : List (Except E C)) (buf : List C),
    Stream.run ops (⟨inner, buf⟩ : Stream C E)
      = Transformed.run ops
          (⟨inner, fun r => r, buf.reverse⟩ : Transformed (Except E C) C E) := by
  induction ops with
  | nil => intro inner buf; rfl
  | cons op ops ih =>
    intro inner buf
    cases op with
    | unreadOne x =>
      show Stream.run ops (⟨inner, x :: buf⟩ : Stream C E)
          = Transformed.run ops (⟨inner, fun r => r, buf.reverse ++ [x]⟩ :
              Transformed (Except E C) C E)
      rw [ih inner (x :: buf)]
      simp
    | unreadMany xs =>
      show Stream.run ops ((⟨inner, buf⟩ : Stream C E).unread_from_chunks xs)
          = Transformed.run ops (⟨inner, fun r => r, buf.reverse ++ xs⟩ :
              Transformed (Except E C) C E)
      rw [Stream.unread_from_chunks_eq]
      rw [show ((⟨inner, buf⟩ : Stream C E).inner) = inner from rfl,
        show ((⟨inner, buf⟩ : Stream C E).backing_store) = buf from rfl]
      rw [ih inner (xs.reverse ++ buf)]
      simp
    | pull =>
      cases buf with
      | cons b rest =>
        have hT : (⟨inner, fun r => r, (b :: rest).reverse⟩ :
              Transformed (Except E C) C E).next
            = (some (Except.ok b),
               ⟨inner, fun r => r, rest.reverse⟩) := by
          apply Transformed.next_snoc
          simp
        show some (Except.ok b) :: Stream.run ops (⟨inner, rest⟩ : Stream C E)
            = ((⟨inner, fun r => r, (b :: rest).reverse⟩ :
                Transformed (Except E C) C E).next).1
              :: Transformed.run ops ((⟨inner, fun r => r, (b :: rest).reverse⟩ :
                Transformed (Except E C) C E).next).2
        rw [hT, ih inner rest]
      | nil =>
        cases inner with
        | cons i irest =>
          show some i :: Stream.run ops (⟨irest, []⟩ : Stream C E)
              = some i :: Transformed.run ops (⟨irest, fun r => r, []⟩ :
                  Transformed (Except E C) C E)
          rw [ih irest []]
          rfl
        | nil =>
          show (none : Option (Except E C)) :: Stream.run ops (⟨[], []⟩ : Stream C E)
              = none :: Transformed.run ops (⟨[], fun r => r, []⟩ :
                  Transformed (Except E C) C E)
          rw [ih [] []]
          rfl

/-- C8: the two pushback implementations are observationally equivalent: for
every sequence of `unread` / `unread_many` / `pull` operations, `Stream`
(push-front, pop-front) and `Transformed` with the identity transform
(push-back, pop-back) over the same producer deliver the same sequence of
pull results. -/
theorem C8_pushback_equivalence {C E : Type} (ops : List (Op C))
    (inner : List (Except E C)) :
    Stream.run ops (Stream.new inner)
      = Transformed.run ops (Transformed.new inner (fun r => r)) := by
  have h := run_equiv_aux ops inner []
  simpa [Stream.new, Transformed.new] using h

/-- C9: seeding `Transformed::with_backing_store` with tokens `t1, ..., tn`
makes the first `n` pulls yield `Ok tn, ..., Ok t1` — the seed delivered in
reverse of the seeding order — with the producer untouched (the final state
still holds the whole producer and an empty buffer). -/
theorem C9_seed_buffer_delivery {T U E : Type} (iter : List T)
    (transform : T → Except E U) (seed : List U) :
    (Transformed.with_backing_store iter transform seed).pulls seed.length
      = (seed.reverse.map fun u => some (Except.ok u), ⟨iter, transform, []⟩) := by
  have h := Transformed.pulls_back_buffer seed (⟨iter, transform, []⟩ : Transformed T U E)
  simpa [Transformed.with_backing_store] using h

/-- C10: `unread` is total (always succeeds) and modifies only the pushback
buffer: in both implementations the producer field, and for `Transformed`
also the transform field, are left unchanged, and the buffer gains exactly
the pushed token (at the front for `Stream`, at the back for `Transformed`). -/
theorem C10_unread_frame {C E T U : Type} (s : Stream C E) (x : C)
    (t : Transformed T U E) (y : U) :
    s.unread x = { s with backing_store := x :: s.backing_store }
      ∧ t.unread y = { t with backing_store := t.backing_store ++ [y] }
      ∧ (s.unread x).inner = s.inner
      ∧ (t.unread y).iter = t.iter
      ∧ (t.unread y).transform = t.transform :=
  ⟨rfl, rfl, rfl, rfl, rfl⟩

end CommonStream
